import Mathlib

/-!
Shallow embedding of the serapis search aggregator (`serapis/search.py`) and
task pipeline (`serapis/tasks.py`).

External collaborators (HTTP transport, the `PageRequest` extractor, the
language detector, `urlparse`, the annotate/features modules) are passed in as
function parameters or as explicit outcome values; the repository's own control
flow is translated faithfully.  Concurrency is modelled by discrete
half-second polling ticks: each asynchronous enrichment job is described by an
optional tick at which its completion flag becomes true (`none` means the job
never completes), matching the write-once completion-flag semantics of the
fork-join primitive.
-/

namespace Serapis

/-- Python exception kinds that can escape a modelled call. -/
inductive PyErr where
  | netError
  | unboundLocal
  | keyError
  | valueError
  deriving DecidableEq, Repr

/-- Configuration surface consumed by the search module (`config` object). -/
structure Config where
  search_engine : String
  max_search_duration : ℚ
  exclude_domains : List String
  duckduckgo_sources : List String
  deriving Repr

/-- A sentence object as carried in `url_object['sentences']`: the raw and
cleaned sentence text plus the optional fields added by later pipeline
stages (`frd` by sentence classification, `patterns` by `detect`,
`rating` by `rate`).  `none` models the key being absent from the dict. -/
structure SentenceObj where
  s : String
  s_clean : String
  frd : Option ℚ
  patterns : Option (List String)
  rating : Option ℕ
  deriving DecidableEq, Repr

/-- A url object (candidate result dict) as produced by the provider adapters
and enriched by extraction.  Optional fields model dict keys that a given
producer may leave absent. -/
structure UrlObj where
  url : String
  title : Option String
  search_provider : Option String
  summary : Option String
  author : Option String
  date : Option String
  source : Option String
  doc : Option String
  readability : Option ℚ
  sentences : List SentenceObj
  variants : List String
  deriving DecidableEq, Repr

/-- The structured page content produced by `PageRequest(url, term).structured`
(extraction is an external collaborator boundary). -/
structure Structured where
  doc : String
  sentences : List SentenceObj
  variants : List String
  author : Option String
  date : Option String
  deriving DecidableEq, Repr

/-- Modelled from the spec: `merge_dict` lives in `serapis.util`, which is not
under `src/`; per the spec a StructuredDocument is the CandidateResult plus
full text, sentences and variants, so merging overlays the extracted fields
onto the provider-supplied url object. -/
def merge_dict (u : UrlObj) (st : Structured) : UrlObj :=
  { u with
    doc := some st.doc
    sentences := st.sentences
    variants := st.variants
    author := st.author.orElse (fun _ => u.author)
    date := st.date.orElse (fun _ => u.date) }

/-- `extract_wrapper(url_object, term)`: runs the page extractor and merges the
structured result into the url object; any exception raised by extraction is
caught and the original url object is returned unchanged.  `pageFn` stands for
the external `PageRequest(url, term).structured` call, with `.error` modelling
a raised exception. -/
def extract_wrapper (pageFn : String → String → Except PyErr Structured)
    (url_object : UrlObj) (term : String) : UrlObj :=
  match pageFn url_object.url term with
  | .error _ => url_object
  | .ok structured => merge_dict url_object structured

/-- Modelled from the spec: the fork-join primitive `AsynchronousRequest`
lives in `serapis.util`, which is not under `src/`; per the spec its
completion flag becomes true exactly once and is then only read.  This models
the flag of one job at polling tick `t` (one tick = one 0.5 s sleep): a job
whose worker finishes at tick `c` reads as done at every tick `t ≥ c`; a job
that never completes (`none`) never reads as done. -/
def jobDone (completesAt : Option ℕ) (t : ℕ) : Bool :=
  match completesAt with
  | some c => decide (c ≤ t)
  | none => false

/-- The polling loop of `search_and_parse`: starting at tick `t`, keep
sleeping 0.5 s (one tick) while not all jobs are done and the tracked elapsed
time `t/2` (seconds) is still below `maxDur`; returns the tick at which
polling stops.  Structural fuel only bounds the recursion; `stopTick` below
supplies enough fuel for the guard to decide termination. -/
def joinTicksAux (allDone : ℕ → Bool) (maxDur : ℚ) : ℕ → ℕ → ℕ
  | 0, t => t
  | fuel + 1, t =>
    if allDone t = true ∨ ¬((t : ℚ) / 2 < maxDur) then t
    else joinTicksAux allDone maxDur fuel (t + 1)

/-- Fuel that is always sufficient for the elapsed-time guard to fire. -/
def joinFuel (maxDur : ℚ) : ℕ := (⌈2 * maxDur⌉).toNat + 1

/-- Tick at which the `search_and_parse` polling loop stops. -/
def stopTick (allDone : ℕ → Bool) (maxDur : ℚ) : ℕ :=
  joinTicksAux allDone maxDur (joinFuel maxDur) 0

/-- All scheduled jobs read as done at tick `t` (`all(jobs)`). -/
def allJobsDone (scheds : List (Option ℕ)) (t : ℕ) : Bool :=
  scheds.all fun c => jobDone c t

/-- Observable output of `search_and_parse`: the returned list, the lost-url
count the log line reports, and the number of polling ticks waited. -/
structure ParseOut where
  result : List UrlObj
  lostLogged : ℕ
  waitedTicks : ℕ
  deriving DecidableEq, Repr

/-- `search_and_parse(search_func, term)` with the provider's raw results
`searchResult` already obtained from `search_func(term)`.  One enrichment job
per raw result is scheduled (job `i` runs `extract_wrapper` on result `i` and
completes at tick `sched i`, if ever); the loop polls every 0.5 s until all
jobs are done or the tracked elapsed time reaches `maxDur` seconds; then the
values of the jobs that are done are collected in order and the difference
between raw-result count and returned count is logged as urls lost. -/
def search_and_parse (pageFn : String → String → Except PyErr Structured)
    (term : String) (searchResult : List UrlObj) (sched : ℕ → Option ℕ)
    (maxDur : ℚ) : ParseOut :=
  let values := searchResult.map fun u => extract_wrapper pageFn u term
  let scheds := (List.range searchResult.length).map sched
  let T := stopTick (allJobsDone scheds) maxDur
  let result := (values.enum.filter fun p => jobDone (sched p.1) T).map Prod.snd
  { result := result
    lostLogged := searchResult.length - result.length
    waitedTicks := T }

/-- The engine dictionary lookup in `search_all`:
`{'bing': search_bing, 'google': search_google}.get(config.search_engine)`. -/
inductive Engine where
  | bing
  | google
  deriving DecidableEq, Repr

/-- Dictionary `.get` on the engine table. -/
def engineFor (s : String) : Option Engine :=
  if s = "bing" then some Engine.bing
  else if s = "google" then some Engine.google
  else none

/-- Observable output of `search_all`: the returned list, which asynchronous
jobs were scheduled, and whether the invalid-engine error was logged. -/
structure SearchAllOut where
  result : List UrlObj
  scheduledJobs : List String
  errorLogged : Bool
  deriving DecidableEq, Repr

/-- `search_all(term)`: selects the primary engine from the config; on an
unknown engine it logs an error and returns `[]` without scheduling anything.
Otherwise it schedules the DuckDuckGo job and the `search_and_parse` job,
polls until both are done (no deadline), concatenates DuckDuckGo's value
(first, `None` coalesced to `[]`) with the primary job's value (second), and
keeps only truthy entries.  The two joined values are parameters: the outer
`Option` is the job's `.value` (`none` when the worker crashed and left it
unset), and each list entry is `Option UrlObj` (`none` models a falsy entry
such as a `None` left by a crashed inner job). -/
def search_all (cfg : Config)
    (ddgVal searchVal : Option (List (Option UrlObj))) : SearchAllOut :=
  match engineFor cfg.search_engine with
  | none => { result := [], scheduledJobs := [], errorLogged := true }
  | some _ =>
    let combined := ddgVal.getD [] ++ searchVal.getD []
    { result := combined.filterMap id
      scheduledJobs := ["search_duckduckgo", "search_and_parse"]
      errorLogged := false }

/-- `qualify_search_result(url, text, date=None)`: returns `False` when the
url contains a configured excluded-domain substring, when the preview text is
non-empty and the external language detector says it is not English, or when
the `urlparse`d path of the url ends in `".pdf"`; otherwise `True`.
`isEnglish` and `parsedPath` stand for the external `is_english` detector and
the stdlib `urlparse(url).path`. -/
def qualify_search_result (cfg : Config) (isEnglish : String → Bool)
    (parsedPath : String → String) (url text : String)
    (date : Option String) : Bool :=
  if cfg.exclude_domains.any fun d => url.containsSubstr d then false
  else if text ≠ "" && !(isEnglish text) then false
  else if (parsedPath url).endsWith ".pdf" then false
  else true

/-- Outcome of the provider HTTP call expression inside an adapter's `try`
block: either the request call itself raised before the response variable was
bound, or a response value was obtained. -/
inductive HttpOutcome (α : Type) where
  | raised
  | got (a : α)
  deriving DecidableEq, Repr

/-- One item of the Google Custom Search JSON `items` array. -/
structure GoogleItem where
  link : String
  snippet : String
  title : String
  deriving DecidableEq, Repr

/-- `search_google(term)`: one GET to the Custom Search endpoint.  When the
request call itself raises, `r` is unbound and the `except` handler's
`r.status_code` reference raises an unbound-local error that propagates; when
`r` was bound but reading `r.json()` raised (modelled `got none`), the handler
logs and returns `[]`; otherwise every item passing the qualifier is mapped to
a url object. -/
def search_google (cfg : Config) (isEnglish : String → Bool)
    (parsedPath : String → String) (term : String)
    (outcome : HttpOutcome (Option (List GoogleItem))) :
    Except PyErr (List UrlObj) :=
  match outcome with
  | .raised => .error .unboundLocal
  | .got none => .ok []
  | .got (some items) =>
    .ok (items.filterMap fun it =>
      if qualify_search_result cfg isEnglish parsedPath it.link it.snippet none
      then some
        { url := it.link, title := some it.title
          search_provider := some "google", summary := some it.snippet
          author := none, date := none, source := none, doc := none
          readability := none, sentences := [], variants := [] }
      else none)

/-- One item of the Bing `d.results` JSON array. -/
structure BingItem where
  itemUrl : String
  description : String
  title : String
  deriving DecidableEq, Repr

/-- `search_bing(term)`: one POST with basic auth.  The `try`/`except`
structure is the same as Google's: a raise before `r` is bound makes the
handler itself raise an unbound-local error; a parse failure after `r` is
bound returns `[]`; otherwise qualifying items become url objects. -/
def search_bing (cfg : Config) (isEnglish : String → Bool)
    (parsedPath : String → String) (term : String)
    (outcome : HttpOutcome (Option (List BingItem))) :
    Except PyErr (List UrlObj) :=
  match outcome with
  | .raised => .error .unboundLocal
  | .got none => .ok []
  | .got (some items) =>
    .ok (items.filterMap fun it =>
      if qualify_search_result cfg isEnglish parsedPath it.itemUrl
          it.description none
      then some
        { url := it.itemUrl, title := some it.title
          search_provider := some "bing", summary := some it.description
          author := none, date := none, source := none, doc := none
          readability := none, sentences := [], variants := [] }
      else none)

/-- One object of the Diffbot search response. -/
structure DiffbotObj where
  text : String
  pageUrl : String
  title : String
  author : String
  date : String
  deriving DecidableEq, Repr

/-- `search_diffbot_cache(term)`: one GET with no `try`/`except` at all, so a
raise from the request or its JSON decoding propagates to the caller.  On a
response, every object with non-empty text is mapped to a url object, with
sentence extraction (`PageRequest.extract_sentences`) and date parsing
(`dateutil`) as external collaborators. -/
def search_diffbot_cache (parseDate : String → String)
    (sentencesOf : String → List SentenceObj)
    (variantsOf : String → List String) (term : String)
    (outcome : HttpOutcome (List DiffbotObj)) : Except PyErr (List UrlObj) :=
  match outcome with
  | .raised => .error .netError
  | .got objs =>
    .ok (objs.filterMap fun o =>
      if o.text ≠ "" then some
        { url := o.pageUrl, title := some o.title
          search_provider := some "diffbot", summary := none
          author := some o.author, date := some (parseDate o.date)
          source := none, doc := some o.text, readability := none
          sentences := sentencesOf o.text, variants := variantsOf o.text }
      else none)

/-- The DuckDuckGo instant-answer JSON fields read by the adapter. -/
structure DDGResp where
  abstractSource : String
  abstract : String
  abstractURL : String
  definition : String
  definitionURL : String
  definitionSource : String
  heading : String
  deriving DecidableEq, Repr

/-- `search_duckduckgo(term)`: one GET wrapped in a bare `try`/`except` that
returns `[]` on any raise (`outcome = none`).  If the response's
`AbstractSource` is not in the configured allow-list the adapter returns `[]`
before either instant-answer field is examined; otherwise a non-empty
`Abstract` contributes one result and a non-empty `Definition` contributes
one more, each enriched synchronously by the external sentence extractor. -/
def search_duckduckgo (cfg : Config)
    (sentencesOf : String → List SentenceObj)
    (variantsOf : String → List String) (term : String)
    (outcome : Option DDGResp) : List UrlObj :=
  match outcome with
  | none => []
  | some req =>
    if req.abstractSource ∉ cfg.duckduckgo_sources then []
    else
      (if req.abstract ≠ "" then
        [{ url := req.abstractURL, title := some req.heading
           search_provider := some "duckduckgo", summary := none
           author := none, date := none, source := some req.abstractSource
           doc := some req.abstract, readability := none
           sentences := sentencesOf req.abstract
           variants := variantsOf req.abstract }]
      else []) ++
      (if req.definition ≠ "" then
        [{ url := req.definitionURL, title := some req.heading
           search_provider := some "duckduckgo", summary := none
           author := none, date := none, source := some req.definitionSource
           doc := some req.definition, readability := none
           sentences := sentencesOf req.definition
           variants := variantsOf req.definition }]
      else [])

/-- A pipeline message (`tasks.py`): a dict with the seed fields `word` and
`hashslug` plus the fields accreted by the stages.  `none` models an absent
dict key. -/
structure Message where
  word : String
  hashslug : String
  crawl_date : Option String
  urls : Option (List UrlObj)
  deriving DecidableEq, Repr

/-- `write_message(task, message)`: persists the message under the key
`"{task}:{hashslug}"` and returns the message.  The store write is returned
explicitly as a key/value pair. -/
def write_message (task : String) (message : Message) :
    (String × Message) × Message :=
  ((task ++ ":" ++ message.hashslug, message), message)

/-- `search(message)`: attaches the aggregator result as `urls` and the
capture timestamp as `crawl_date`, then writes under the `detect` task key.
`aggResult` is the value of `search_all(message['word'])` and `now` the
external timestamp.  Returns the written message together with the single
store write performed. -/
def searchTask (aggResult : List UrlObj) (now : String) (message : Message) :
    Message × List (String × Message) :=
  let m := { message with urls := some aggResult, crawl_date := some now }
  let wr := write_message "detect" m
  (wr.2, [wr.1])

/-- Modelled from the spec: per-sentence effect of `batch_tag_sentences`
(`serapis.annotate`, not under `src/`), which classifies a sentence and
attaches the probability-like `frd` field.  `classify` is the external
classifier. -/
def tagSentence (classify : String → ℚ) (s : SentenceObj) : SentenceObj :=
  { s with frd := some (classify s.s_clean) }

/-- Modelled from the spec: `batch_tag_sentences` lives in `serapis.annotate`,
which is not under `src/`; per the spec it classifies each sentence of each
url object, attaching a probability-like field, and removes nothing. -/
def batch_tag_sentences (classify : String → ℚ) (urls : List UrlObj) :
    List UrlObj :=
  urls.map fun u =>
    { u with sentences := u.sentences.map (tagSentence classify) }

/-- Modelled from the spec: `readability_score` lives in `serapis.annotate`,
which is not under `src/`; per the spec it computes a readability score per
url object and attaches it.  `rscore` is the external scorer. -/
def readability_score (rscore : UrlObj → ℚ) (u : UrlObj) : UrlObj :=
  { u with readability := some (rscore u) }

/-- Per-sentence effect of the `detect` loop body: attaches the matched
lexical patterns of the cleaned sentence (`match_wordnik_rules`,
external). -/
def patternSentence (matchRules : String → List String) (s : SentenceObj) :
    SentenceObj :=
  { s with patterns := some (matchRules s.s_clean) }

/-- Per-url effect of the `detect` loop body: attaches the readability score
and the matched patterns of every sentence. -/
def detectUrl (rscore : UrlObj → ℚ) (matchRules : String → List String)
    (u : UrlObj) : UrlObj :=
  let u2 := readability_score rscore u
  { u2 with sentences := u2.sentences.map (patternSentence matchRules) }

/-- `detect(message)`: tags all sentences, then for each url object attaches
its readability score and, per sentence, the matched lexical patterns of its
cleaned text, then writes under the `rate` task key.  Accessing
`message['urls']` when the key is absent raises, so the stage returns an
error in that case. -/
def detect (classify : String → ℚ) (rscore : UrlObj → ℚ)
    (matchRules : String → List String) (message : Message) :
    Except PyErr (Message × List (String × Message)) :=
  match message.urls with
  | none => .error .keyError
  | some urls =>
    let urls2 := (batch_tag_sentences classify urls).map
      (detectUrl rscore matchRules)
    let m := { message with urls := some urls2 }
    let wr := write_message "rate" m
    .ok (wr.2, [wr.1])

/-- Per-sentence effect of the `rate` loop body: the placeholder rating. -/
def rateSentence (s : SentenceObj) : SentenceObj := { s with rating := some 0 }

/-- Per-url effect of the `rate` loop body. -/
def rateUrl (u : UrlObj) : UrlObj :=
  { u with sentences := u.sentences.map rateSentence }

/-- `rate(message)`: assigns the placeholder rating `0` to every sentence of
every url object, then writes under the `save` task key. -/
def rate (message : Message) :
    Except PyErr (Message × List (String × Message)) :=
  match message.urls with
  | none => .error .keyError
  | some urls =>
    let urls2 := urls.map rateUrl
    let m := { message with urls := some urls2 }
    let wr := write_message "save" m
    .ok (wr.2, [wr.1])

/-- Runs the `search`, `detect` and `rate` stages in sequence on a seed
message and collects the store writes in the order they are performed. -/
def runPipeline (classify : String → ℚ) (rscore : UrlObj → ℚ)
    (matchRules : String → List String) (aggResult : List UrlObj)
    (now : String) (seed : Message) :
    Except PyErr (List (String × Message)) :=
  let s := searchTask aggResult now seed
  match detect classify rscore matchRules s.1 with
  | .error e => .error e
  | .ok d =>
    match rate d.1 with
    | .error e => .error e
    | .ok r => .ok (s.2 ++ d.2 ++ r.2)

/-- Field accretion on an optional dict key: the key is either absent before,
or present with the same value after. -/
def optAdd {α : Type} (a b : Option α) : Prop := a = none ∨ a = b

/-- Payload growth on one sentence object: text fields unchanged, optional
fields only added. -/
def sentSub (s t : SentenceObj) : Prop :=
  s.s = t.s ∧ s.s_clean = t.s_clean ∧ optAdd s.frd t.frd ∧
    optAdd s.patterns t.patterns ∧ optAdd s.rating t.rating

/-- Payload growth on one url object: provider-supplied fields unchanged,
optional fields only added, sentences grown pointwise. -/
def urlSub (u v : UrlObj) : Prop :=
  u.url = v.url ∧ u.title = v.title ∧ u.search_provider = v.search_provider ∧
    u.summary = v.summary ∧ u.author = v.author ∧ u.date = v.date ∧
    u.source = v.source ∧ u.doc = v.doc ∧ optAdd u.readability v.readability ∧
    List.Forall₂ sentSub u.sentences v.sentences ∧ u.variants = v.variants

/-- Payload growth on a whole message: identity fields unchanged, the
timestamp only added, and the url list either absent before or grown
pointwise.  This is the "fields are only added, never removed" superset
relation between successive pipeline messages. -/
def msgSub (m m' : Message) : Prop :=
  m.word = m'.word ∧ m.hashslug = m'.hashslug ∧
    optAdd m.crawl_date m'.crawl_date ∧
    (m.urls = none ∨ ∃ l l', m.urls = some l ∧ m'.urls = some l' ∧
      List.Forall₂ urlSub l l')

/-- Url objects as the aggregator hands them to the pipeline: none of the
fields that later stages attach are present yet. -/
def freshUrl (u : UrlObj) : Prop :=
  u.readability = none ∧ ∀ s ∈ u.sentences,
    s.frd = none ∧ s.patterns = none ∧ s.rating = none

instance freshUrlDecidable (u : UrlObj) : Decidable (freshUrl u) :=
  decidable_of_iff (u.readability = none ∧ ∀ s ∈ u.sentences,
    s.frd = none ∧ s.patterns = none ∧ s.rating = none) Iff.rfl

/-- The polling stop tick of `search_and_parse` over `n` scheduled jobs. -/
def parseStopTick (n : ℕ) (sched : ℕ → Option ℕ) (maxDur : ℚ) : ℕ :=
  stopTick (allJobsDone ((List.range n).map sched)) maxDur

/-- A concrete extraction stub whose `PageRequest` always raises. -/
def pageFnErr : String → String → Except PyErr Structured :=
  fun _ _ => Except.error PyErr.netError

/-- A concrete configuration with a valid primary engine. -/
def cfgEx : Config :=
  { search_engine := "google", max_search_duration := 2
    exclude_domains := ["pinterest.com"], duckduckgo_sources := ["Wikipedia"] }

/-- A concrete configuration whose engine is outside the supported set. -/
def cfgBad : Config := { cfgEx with search_engine := "altavista" }

/-- A concrete provider-fresh url object with one sentence. -/
def uEx : UrlObj :=
  { url := "http://example.com/a", title := some "A"
    search_provider := some "google", summary := some "a summary"
    author := none, date := none, source := none, doc := some "Doc."
    readability := none
    sentences := [{ s := "A word.", s_clean := "a word", frd := none
                    patterns := none, rating := none }]
    variants := [] }

/-- A concrete seed message as handed to the `search` stage. -/
def seedEx : Message :=
  { word := "procrastinate", hashslug := "procrastinate-6ad283"
    crawl_date := none, urls := none }

/-- The message every stage writes in a run whose aggregator result is
empty. -/
def emptyRunMsg : Message :=
  { seedEx with urls := some [], crawl_date := some "2015-11-20" }

end Serapis

namespace Serapis

/-! ## Lemmas about the polling loop -/

/-- Either the loop consumed all its fuel, advancing one tick per unit, or it
stopped at a tick satisfying the stop condition. -/
theorem joinTicksAux_fuel_or_stop (done : ℕ → Bool) (D : ℚ) :
    ∀ fuel t, joinTicksAux done D fuel t = t + fuel ∨
      (done (joinTicksAux done D fuel t) = true ∨
        ¬((joinTicksAux done D fuel t : ℚ) / 2 < D)) := by
  intro fuel
  induction fuel with
  | zero => intro t; left; simp [joinTicksAux]
  | succ n ih =>
    intro t
    by_cases h : done t = true ∨ ¬((t : ℚ) / 2 < D)
    · right
      simp only [joinTicksAux]
      rw [if_pos h]
      exact h
    · rcases ih (t + 1) with h1 | h1
      · left
        simp only [joinTicksAux]
        rw [if_neg h, h1]
        omega
      · right
        simp only [joinTicksAux]
        rw [if_neg h]
        exact h1

/-- At every tick strictly before the loop's stop tick, the loop guard held:
not all jobs were done and the elapsed time was below the maximum. -/
theorem joinTicksAux_guard (done : ℕ → Bool) (D : ℚ) :
    ∀ fuel t s, t ≤ s → s < joinTicksAux done D fuel t →
      done s = false ∧ (s : ℚ) / 2 < D := by
  intro fuel
  induction fuel with
  | zero =>
    intro t s hts hlt
    simp only [joinTicksAux] at hlt
    omega
  | succ n ih =>
    intro t s hts hlt
    by_cases h : done t = true ∨ ¬((t : ℚ) / 2 < D)
    · simp only [joinTicksAux] at hlt
      rw [if_pos h] at hlt
      omega
    · simp only [joinTicksAux] at hlt
      rw [if_neg h] at hlt
      push_neg at h
      rcases Nat.eq_or_lt_of_le hts with rfl | hlt2
      · exact ⟨by simpa using h.1, h.2⟩
      · exact ih (t + 1) s hlt2 hlt

/-- The loop either never advanced or its last advance happened while the
elapsed time was still below the maximum. -/
theorem joinTicksAux_last_advance (done : ℕ → Bool) (D : ℚ) :
    ∀ fuel t, joinTicksAux done D fuel t = t ∨
      ((joinTicksAux done D fuel t : ℚ) - 1) / 2 < D := by
  intro fuel
  induction fuel with
  | zero => intro t; left; simp [joinTicksAux]
  | succ n ih =>
    intro t
    by_cases h : done t = true ∨ ¬((t : ℚ) / 2 < D)
    · left
      simp only [joinTicksAux]
      rw [if_pos h]
    · right
      simp only [joinTicksAux]
      rw [if_neg h]
      push_neg at h
      rcases ih (t + 1) with h1 | h1
      · rw [h1]
        push_cast
        linarith [h.2]
      · exact h1

/-- The guard held at every tick before the stop tick. -/
theorem stopTick_guard (done : ℕ → Bool) (D : ℚ) :
    ∀ s < stopTick done D, done s = false ∧ (s : ℚ) / 2 < D :=
  fun s hs => joinTicksAux_guard done D (joinFuel D) 0 s (Nat.zero_le s) hs

/-- The stop condition holds at the stop tick: all jobs are done or the
elapsed time is no longer below the maximum (the fuel is always sufficient
for the elapsed-time guard to fire first). -/
theorem stopTick_stop (done : ℕ → Bool) (D : ℚ) :
    done (stopTick done D) = true ∨ ¬((stopTick done D : ℚ) / 2 < D) := by
  rcases joinTicksAux_fuel_or_stop done D (joinFuel D) 0 with h | h
  · right
    unfold stopTick
    rw [h]
    have h2 : (2 * D : ℚ) ≤ ((⌈2 * D⌉ : ℤ) : ℚ) := Int.le_ceil _
    have h3 : ((⌈2 * D⌉ : ℤ) : ℚ) ≤ (((⌈2 * D⌉).toNat : ℕ) : ℚ) := by
      exact_mod_cast Int.self_le_toNat _
    simp only [joinFuel, Nat.zero_add]
    push_cast
    intro hlt
    linarith
  · exact h

/-- The stop tick's elapsed time never exceeds the maximum duration plus one
polling interval. -/
theorem stopTick_le (done : ℕ → Bool) (D : ℚ) (hD : 0 ≤ D) :
    (stopTick done D : ℚ) / 2 ≤ D + 1 / 2 := by
  rcases joinTicksAux_last_advance done D (joinFuel D) 0 with h | h
  · unfold stopTick
    rw [h]
    push_cast
    linarith
  · unfold stopTick
    linarith

/-! ## Lemmas about the result bookkeeping of `search_and_parse` -/

/-- Filtering an enumerated list by a predicate on the index has the same
length as filtering the corresponding index range. -/
theorem length_filter_enumFrom (q : ℕ → Bool) :
    ∀ {α : Type} (l : List α) (n : ℕ),
      ((l.enumFrom n).filter fun p => q p.1).length =
        ((List.range' n l.length).filter q).length := by
  intro α l
  induction l with
  | nil => intro n; simp
  | cons a l ih =>
    intro n
    simp only [List.enumFrom, List.length_cons, List.range'_succ, List.filter]
    by_cases h : q n
    · simp only [h]
      simpa using ih (n + 1)
    · simp only [Bool.not_eq_true] at h
      simp only [h]
      exact ih (n + 1)

/-- The returned list of `search_and_parse` has one entry per job whose
completion flag reads true at the stop tick. -/
theorem search_and_parse_result_length
    (pageFn : String → String → Except PyErr Structured) (term : String)
    (searchResult : List UrlObj) (sched : ℕ → Option ℕ) (maxDur : ℚ) :
    (search_and_parse pageFn term searchResult sched maxDur).result.length =
      ((List.range searchResult.length).filter fun i =>
        jobDone (sched i) (parseStopTick searchResult.length sched maxDur)).length := by
  have h1 : (search_and_parse pageFn term searchResult sched maxDur).result =
      (((searchResult.map fun u => extract_wrapper pageFn u term).enum.filter
        fun p => jobDone (sched p.1)
          (parseStopTick searchResult.length sched maxDur)).map Prod.snd) := rfl
  rw [h1, List.length_map, List.enum,
    length_filter_enumFrom (fun i => jobDone (sched i)
      (parseStopTick searchResult.length sched maxDur)),
    List.length_map, ← List.range_eq_range']

/-- Splitting a list by a Boolean predicate partitions its length. -/
theorem length_filter_not_add {α : Type} (l : List α) (f : α → Bool) :
    (l.filter f).length + (l.filter fun a => !(f a)).length = l.length := by
  induction l with
  | nil => simp
  | cons a l ih =>
    simp only [List.filter_cons]
    by_cases h : f a = true
    · simp [h]
      omega
    · simp only [Bool.not_eq_true] at h
      simp [h]
      omega

/-! ## Claim theorems for the search module -/

/-- C1: `search_and_parse` returns exactly the values of the enrichment jobs
whose completion flag reads true when polling stops; with `N` raw provider
results and `k` jobs still incomplete at the deadline, the returned list has
exactly `N - k` entries and the log line reports `k` urls lost. -/
theorem search_and_parse_deadline_partition
    (pageFn : String → String → Except PyErr Structured) (term : String)
    (searchResult : List UrlObj) (sched : ℕ → Option ℕ) (maxDur : ℚ) :
    (search_and_parse pageFn term searchResult sched maxDur).result =
      (((searchResult.map fun u => extract_wrapper pageFn u term).enum.filter
        fun p => jobDone (sched p.1)
          (parseStopTick searchResult.length sched maxDur)).map Prod.snd) ∧
    (search_and_parse pageFn term searchResult sched maxDur).result.length =
      searchResult.length -
        ((List.range searchResult.length).filter fun i =>
          !(jobDone (sched i)
            (parseStopTick searchResult.length sched maxDur))).length ∧
    (search_and_parse pageFn term searchResult sched maxDur).lostLogged =
      ((List.range searchResult.length).filter fun i =>
        !(jobDone (sched i)
          (parseStopTick searchResult.length sched maxDur))).length := by
  have hlen := search_and_parse_result_length pageFn term searchResult sched maxDur
  have hsum := length_filter_not_add (List.range searchResult.length)
    (fun i => jobDone (sched i) (parseStopTick searchResult.length sched maxDur))
  have hrange : (List.range searchResult.length).length = searchResult.length :=
    List.length_range searchResult.length
  have hll : (search_and_parse pageFn term searchResult sched maxDur).lostLogged =
      searchResult.length -
        (search_and_parse pageFn term searchResult sched maxDur).result.length := rfl
  refine ⟨rfl, ?_, ?_⟩
  · rw [hlen]
    omega
  · rw [hll, hlen]
    omega

/-- C2: the polling loop of `search_and_parse` stops exactly when all
enrichment jobs are complete or the tracked elapsed time has reached
`max_search_duration` — at every earlier tick neither held — and therefore
the join never waits longer than `max_search_duration` plus one 0.5 s
polling interval. -/
theorem search_and_parse_join_policy
    (pageFn : String → String → Except PyErr Structured) (term : String)
    (searchResult : List UrlObj) (sched : ℕ → Option ℕ) (maxDur : ℚ)
    (hD : 0 ≤ maxDur) :
    (allJobsDone ((List.range searchResult.length).map sched)
        (search_and_parse pageFn term searchResult sched maxDur).waitedTicks = true ∨
      maxDur ≤
        ((search_and_parse pageFn term searchResult sched maxDur).waitedTicks : ℚ) / 2) ∧
    (∀ s < (search_and_parse pageFn term searchResult sched maxDur).waitedTicks,
      allJobsDone ((List.range searchResult.length).map sched) s = false ∧
        (s : ℚ) / 2 < maxDur) ∧
    ((search_and_parse pageFn term searchResult sched maxDur).waitedTicks : ℚ) / 2 ≤
      maxDur + 1 / 2 := by
  have hw : (search_and_parse pageFn term searchResult sched maxDur).waitedTicks =
      stopTick (allJobsDone ((List.range searchResult.length).map sched)) maxDur := rfl
  rw [hw]
  refine ⟨?_, stopTick_guard _ _, stopTick_le _ _ hD⟩
  rcases stopTick_stop (allJobsDone ((List.range searchResult.length).map sched))
      maxDur with h | h
  · exact Or.inl h
  · exact Or.inr (not_lt.mp h)

/-- Witness for C2 at a concrete input: one job completing at tick 1 with a
2-second maximum duration. -/
theorem search_and_parse_join_policy_witness :
    (allJobsDone ((List.range ([uEx] : List UrlObj).length).map fun _ => some 1)
        (search_and_parse (fun _ _ => Except.error PyErr.netError) "x" [uEx]
          (fun _ => some 1) 2).waitedTicks = true ∨
      (2 : ℚ) ≤
        ((search_and_parse (fun _ _ => Except.error PyErr.netError) "x" [uEx]
          (fun _ => some 1) 2).waitedTicks : ℚ) / 2) ∧
    (∀ s < (search_and_parse (fun _ _ => Except.error PyErr.netError) "x" [uEx]
        (fun _ => some 1) 2).waitedTicks,
      allJobsDone ((List.range ([uEx] : List UrlObj).length).map fun _ => some 1) s = false ∧
        (s : ℚ) / 2 < 2) ∧
    ((search_and_parse (fun _ _ => Except.error PyErr.netError) "x" [uEx]
        (fun _ => some 1) 2).waitedTicks : ℚ) / 2 ≤ 2 + 1 / 2 :=
  search_and_parse_join_policy (fun _ _ => Except.error PyErr.netError) "x" [uEx]
    (fun _ => some 1) 2 (by norm_num)

/-- C3: when enrichment raises, `extract_wrapper` returns the original url
object unchanged; such a url still appears in the output of
`search_and_parse` whenever its job is done at the stop tick; and the length
of the returned list never depends on the extraction outcomes, so an
enrichment error never reduces the result count. -/
theorem extract_wrapper_error_keeps_url
    (pageFn : String → String → Except PyErr Structured) (term : String)
    (u : UrlObj) (e : PyErr) (h : pageFn u.url term = .error e) :
    extract_wrapper pageFn u term = u ∧
    (∀ (searchResult : List UrlObj) (sched : ℕ → Option ℕ) (maxDur : ℚ) (i : ℕ),
      searchResult[i]? = some u →
      jobDone (sched i) (parseStopTick searchResult.length sched maxDur) = true →
      u ∈ (search_and_parse pageFn term searchResult sched maxDur).result) ∧
    (∀ (pageFn' : String → String → Except PyErr Structured)
      (searchResult : List UrlObj) (sched : ℕ → Option ℕ) (maxDur : ℚ),
      (search_and_parse pageFn term searchResult sched maxDur).result.length =
        (search_and_parse pageFn' term searchResult sched maxDur).result.length) := by
  have hw : extract_wrapper pageFn u term = u := by
    unfold extract_wrapper
    rw [h]
  refine ⟨hw, ?_, ?_⟩
  · intro searchResult sched maxDur i hi hdone
    have h1 : (search_and_parse pageFn term searchResult sched maxDur).result =
        (((searchResult.map fun v => extract_wrapper pageFn v term).enum.filter
          fun p => jobDone (sched p.1)
            (parseStopTick searchResult.length sched maxDur)).map Prod.snd) := rfl
    rw [h1]
    refine List.mem_map.mpr ⟨(i, u), ?_, rfl⟩
    refine List.mem_filter.mpr ⟨?_, hdone⟩
    refine List.mk_mem_enum_iff_getElem?.mpr ?_
    rw [List.getElem?_map, hi]
    simp [hw]
  · intro pageFn2 searchResult sched maxDur
    rw [search_and_parse_result_length, search_and_parse_result_length]

/-- Witness for C3 at a concrete input: extraction that always raises on a
concrete url object. -/
theorem extract_wrapper_error_keeps_url_witness :
    extract_wrapper pageFnErr uEx "x" = uEx ∧
    (∀ (searchResult : List UrlObj) (sched : ℕ → Option ℕ) (maxDur : ℚ) (i : ℕ),
      searchResult[i]? = some uEx →
      jobDone (sched i) (parseStopTick searchResult.length sched maxDur) = true →
      uEx ∈ (search_and_parse pageFnErr "x" searchResult sched maxDur).result) ∧
    (∀ (pageFn' : String → String → Except PyErr Structured)
      (searchResult : List UrlObj) (sched : ℕ → Option ℕ) (maxDur : ℚ),
      (search_and_parse pageFnErr "x" searchResult sched maxDur).result.length =
        (search_and_parse pageFn' "x" searchResult sched maxDur).result.length) :=
  extract_wrapper_error_keeps_url pageFnErr "x" uEx PyErr.netError rfl

/-- C4: on an engine outside `{bing, google}`, `search_all` logs the error
and returns the empty list without scheduling any asynchronous job. -/
theorem search_all_invalid_engine (cfg : Config)
    (h1 : cfg.search_engine ≠ "bing") (h2 : cfg.search_engine ≠ "google")
    (ddgVal searchVal : Option (List (Option UrlObj))) :
    search_all cfg ddgVal searchVal =
      { result := [], scheduledJobs := [], errorLogged := true } := by
  have he : engineFor cfg.search_engine = none := by
    unfold engineFor
    rw [if_neg h1, if_neg h2]
  unfold search_all
  rw [he]

/-- Witness for C4 at a concrete input: the engine `"altavista"`. -/
theorem search_all_invalid_engine_witness :
    search_all cfgBad none none =
      { result := [], scheduledJobs := [], errorLogged := true } :=
  search_all_invalid_engine cfgBad (by decide) (by decide) none none

/-- C5: on a valid engine, `search_all` returns DuckDuckGo's entries first
and the primary engine's second, each with falsy entries dropped and order
preserved, and every url object's multiplicity is the sum of its
multiplicities in the two contributions — no deduplication happens. -/
theorem search_all_merge_order (cfg : Config) (e : Engine)
    (h : engineFor cfg.search_engine = some e)
    (ddgVal searchVal : Option (List (Option UrlObj))) :
    (search_all cfg ddgVal searchVal).result =
      (ddgVal.getD []).filterMap id ++ (searchVal.getD []).filterMap id ∧
    ∀ u : UrlObj, (search_all cfg ddgVal searchVal).result.count u =
      ((ddgVal.getD []).filterMap id).count u +
        ((searchVal.getD []).filterMap id).count u := by
  have h1 : (search_all cfg ddgVal searchVal).result =
      (ddgVal.getD []).filterMap id ++ (searchVal.getD []).filterMap id := by
    unfold search_all
    rw [h]
    exact List.filterMap_append (ddgVal.getD []) (searchVal.getD []) id
  exact ⟨h1, fun u => by rw [h1, List.count_append]⟩

/-- Witness for C5 at a concrete input: a url object contributed by both
jobs appears twice, and a falsy entry is dropped. -/
theorem search_all_merge_order_witness :
    (search_all cfgEx (some [some uEx, none]) (some [some uEx])).result =
      ((some [some uEx, none] : Option (List (Option UrlObj))).getD []).filterMap id ++
        ((some [some uEx] : Option (List (Option UrlObj))).getD []).filterMap id ∧
    ∀ u : UrlObj,
      (search_all cfgEx (some [some uEx, none]) (some [some uEx])).result.count u =
        (((some [some uEx, none] : Option (List (Option UrlObj))).getD []).filterMap
          id).count u +
          (((some [some uEx] : Option (List (Option UrlObj))).getD []).filterMap
            id).count u :=
  search_all_merge_order cfgEx Engine.google (by decide) (some [some uEx, none])
    (some [some uEx])

/-- C6: `qualify_search_result` returns `False` exactly when the url contains
a configured excluded-domain substring, or the preview text is non-empty and
classified non-English, or the parsed url path ends in `".pdf"`; and the
`date` argument never affects the result. -/
theorem qualify_search_result_characterization (cfg : Config)
    (isEnglish : String → Bool) (parsedPath : String → String)
    (url text : String) (date : Option String) :
    (qualify_search_result cfg isEnglish parsedPath url text date = false ↔
      (∃ d ∈ cfg.exclude_domains, url.containsSubstr d = true) ∨
      (text ≠ "" ∧ isEnglish text = false) ∨
      (parsedPath url).endsWith ".pdf" = true) ∧
    ∀ d1 d2 : Option String,
      qualify_search_result cfg isEnglish parsedPath url text d1 =
        qualify_search_result cfg isEnglish parsedPath url text d2 := by
  constructor
  · unfold qualify_search_result
    split_ifs with hA hB hC <;>
      simp_all [List.any_eq_true, Bool.and_eq_true, decide_eq_true_eq,
        Bool.not_eq_true']
  · intro d1 d2
    rfl

/-- C7 (amended): DuckDuckGo returns `[]` when its request raises; Google and
Bing return `[]` when reading the bound response fails, but propagate an
unbound-local error when the request call itself raises, because the handler
references the unbound response variable; Diffbot has no handler at all and
propagates any request failure. -/
theorem adapter_error_containment (cfg : Config) (isEnglish : String → Bool)
    (parsedPath : String → String) (parseDate : String → String)
    (sentencesOf : String → List SentenceObj)
    (variantsOf : String → List String) (term : String) :
    search_duckduckgo cfg sentencesOf variantsOf term none = [] ∧
    search_google cfg isEnglish parsedPath term (.got none) = .ok [] ∧
    search_bing cfg isEnglish parsedPath term (.got none) = .ok [] ∧
    search_google cfg isEnglish parsedPath term .raised = .error .unboundLocal ∧
    search_bing cfg isEnglish parsedPath term .raised = .error .unboundLocal ∧
    search_diffbot_cache parseDate sentencesOf variantsOf term .raised =
      .error .netError :=
  ⟨rfl, rfl, rfl, rfl, rfl, rfl⟩

/-- Counterexample to C7 as stated: `search_diffbot_cache` propagates an
exception to its caller when the outbound request fails, since it performs
no exception handling. -/
theorem search_diffbot_cache_propagates :
    search_diffbot_cache (fun s => s) (fun _ => []) (fun _ => []) "procrastinate"
      HttpOutcome.raised = Except.error PyErr.netError := rfl

/-- C10: `search_duckduckgo` returns the empty list whenever the response's
`AbstractSource` is outside the configured allow-list — the gate fires before
the `Definition` field is even examined — and otherwise returns at most two
results. -/
theorem search_duckduckgo_source_gate (cfg : Config)
    (sentencesOf : String → List SentenceObj)
    (variantsOf : String → List String) (term : String) :
    (∀ resp : DDGResp, resp.abstractSource ∉ cfg.duckduckgo_sources →
      search_duckduckgo cfg sentencesOf variantsOf term (some resp) = []) ∧
    (∀ outcome : Option DDGResp,
      (search_duckduckgo cfg sentencesOf variantsOf term outcome).length ≤ 2) := by
  constructor
  · intro resp h
    show (if resp.abstractSource ∉ cfg.duckduckgo_sources then [] else _) = []
    rw [if_pos h]
  · intro outcome
    cases outcome with
    | none => simp [search_duckduckgo]
    | some req =>
      show (if req.abstractSource ∉ cfg.duckduckgo_sources then [] else _).length ≤ 2
      split_ifs <;> simp

/-- Witness for C10 at a concrete input: a response sourced outside the
allow-list, with a `Definition` present, yields no results. -/
theorem search_duckduckgo_source_gate_witness :
    search_duckduckgo cfgEx (fun _ => []) (fun _ => []) "x"
      (some { abstractSource := "Encyclopedia", abstract := "A"
              abstractURL := "http://a", definition := "D"
              definitionURL := "http://d", definitionSource := "E"
              heading := "H" }) = [] ∧
    (search_duckduckgo cfgEx (fun _ => []) (fun _ => []) "x" none).length ≤ 2 :=
  ⟨(search_duckduckgo_source_gate cfgEx (fun _ => []) (fun _ => []) "x").1
      { abstractSource := "Encyclopedia", abstract := "A"
        abstractURL := "http://a", definition := "D"
        definitionURL := "http://d", definitionSource := "E"
        heading := "H" } (by decide),
    (search_duckduckgo_source_gate cfgEx (fun _ => []) (fun _ => []) "x").2 none⟩

/-! ## Lemmas about the task pipeline -/

/-- A list equal to its own image under `f` is fixed by `f` pointwise. -/
theorem list_map_eq_self {α : Type} {l : List α} {f : α → α} (h : l.map f = l) :
    ∀ a ∈ l, f a = a := by
  induction l with
  | nil => simp
  | cons a l ih =>
    simp only [List.map_cons, List.cons.injEq] at h
    intro b hb
    rcases List.mem_cons.mp hb with rfl | hb2
    · exact h.1
    · exact ih h.2 b hb2

/-- The sentence transformations of the pipeline only add fields to a
sentence whose stage fields are still absent. -/
theorem sentSub_detect_single (classify : String → ℚ)
    (matchRules : String → List String) (s : SentenceObj)
    (hfrd : s.frd = none) (hpat : s.patterns = none) :
    sentSub s (patternSentence matchRules (tagSentence classify s)) :=
  ⟨rfl, rfl, Or.inl hfrd, Or.inl hpat, Or.inr rfl⟩

/-- The url transformation of the `detect` stage only adds fields to a
provider-fresh url object. -/
theorem urlSub_detect_single (classify : String → ℚ) (rscore : UrlObj → ℚ)
    (matchRules : String → List String) (u : UrlObj) (hf : freshUrl u) :
    urlSub u (detectUrl rscore matchRules
      { u with sentences := u.sentences.map (tagSentence classify) }) := by
  obtain ⟨hr, hs⟩ := hf
  refine ⟨rfl, rfl, rfl, rfl, rfl, rfl, rfl, rfl, Or.inl hr, ?_, rfl⟩
  have hgoal : List.Forall₂ sentSub u.sentences
      ((u.sentences.map (tagSentence classify)).map
        (patternSentence matchRules)) := by
    rw [List.map_map, List.forall₂_map_right_iff]
    refine List.forall₂_same.mpr ?_
    intro s hsm
    obtain ⟨hfrd, hpat, _⟩ := hs s hsm
    exact sentSub_detect_single classify matchRules s hfrd hpat
  exact hgoal

/-- The url transformation of the `detect` stage only adds fields to each
provider-fresh url object of a list. -/
theorem forall₂_urlSub_detect (classify : String → ℚ) (rscore : UrlObj → ℚ)
    (matchRules : String → List String) (l : List UrlObj)
    (hf : ∀ u ∈ l, freshUrl u) :
    List.Forall₂ urlSub l
      ((batch_tag_sentences classify l).map (detectUrl rscore matchRules)) := by
  unfold batch_tag_sentences
  rw [List.map_map, List.forall₂_map_right_iff]
  refine List.forall₂_same.mpr ?_
  intro u hu
  exact urlSub_detect_single classify rscore matchRules u (hf u hu)

/-- The url transformation of the `rate` stage only adds fields when every
sentence's rating is still absent or already the placeholder. -/
theorem forall₂_urlSub_rate (l : List UrlObj)
    (hp : ∀ u ∈ l, ∀ s ∈ u.sentences, s.rating = none ∨ s.rating = some 0) :
    List.Forall₂ urlSub l (l.map rateUrl) := by
  rw [List.forall₂_map_right_iff]
  refine List.forall₂_same.mpr ?_
  intro u hu
  refine ⟨rfl, rfl, rfl, rfl, rfl, rfl, rfl, rfl, Or.inr rfl, ?_, rfl⟩
  have hgoal : List.Forall₂ sentSub u.sentences
      (u.sentences.map rateSentence) := by
    rw [List.forall₂_map_right_iff]
    refine List.forall₂_same.mpr ?_
    intro s hsm
    exact ⟨rfl, rfl, Or.inr rfl, Or.inr rfl, hp u hu s hsm⟩
  exact hgoal

/-- Sentence ratings are still absent after the `detect` stage's url
transformation of provider-fresh input. -/
theorem detect_output_ratings (classify : String → ℚ) (rscore : UrlObj → ℚ)
    (matchRules : String → List String) (l : List UrlObj)
    (hf : ∀ u ∈ l, freshUrl u) :
    ∀ v ∈ (batch_tag_sentences classify l).map (detectUrl rscore matchRules),
      ∀ s ∈ v.sentences, s.rating = none := by
  intro v hv s hs
  obtain ⟨w, hw, rfl⟩ := List.mem_map.mp hv
  have hw2 : w ∈ l.map fun u =>
      { u with sentences := u.sentences.map (tagSentence classify) } := hw
  obtain ⟨u, hu, rfl⟩ := List.mem_map.mp hw2
  have hs2 : s ∈ (u.sentences.map (tagSentence classify)).map
      (patternSentence matchRules) := hs
  obtain ⟨s2, hs3, rfl⟩ := List.mem_map.mp hs2
  obtain ⟨s0, hs0, rfl⟩ := List.mem_map.mp hs3
  exact ((hf u hu).2 s0 hs0).2.2

/-! ## Claim theorems for the task pipeline -/

/-- C8 (amended): running `search`, `detect`, `rate` on a seed message writes
keys `detect:`, `rate:`, `save:` (suffixed with the hashslug) in that order;
each written message's payload is a superset of the previous stage's payload
— fields are only added, never removed; the superset is strict for the
`search` stage always, for `detect` whenever the aggregator returned at
least one url, and for `rate` whenever some url has at least one
sentence. -/
theorem pipeline_key_order_and_growth
    (classify : String → ℚ) (rscore : UrlObj → ℚ)
    (matchRules : String → List String) (aggResult : List UrlObj)
    (now : String) (seed : Message)
    (hu : seed.urls = none) (hc : seed.crawl_date = none)
    (hf : ∀ u ∈ aggResult, freshUrl u) :
    ∃ m1 m2 m3 : Message,
      runPipeline classify rscore matchRules aggResult now seed =
        .ok [("detect" ++ ":" ++ seed.hashslug, m1),
          ("rate" ++ ":" ++ seed.hashslug, m2),
          ("save" ++ ":" ++ seed.hashslug, m3)] ∧
      msgSub seed m1 ∧ msgSub m1 m2 ∧ msgSub m2 m3 ∧
      seed ≠ m1 ∧ (aggResult ≠ [] → m1 ≠ m2) ∧
      ((∃ u ∈ aggResult, u.sentences ≠ []) → m2 ≠ m3) := by
  refine ⟨{ seed with urls := some aggResult, crawl_date := some now },
    { seed with
      urls := some ((batch_tag_sentences classify aggResult).map
        (detectUrl rscore matchRules))
      crawl_date := some now },
    { seed with
      urls := some (((batch_tag_sentences classify aggResult).map
        (detectUrl rscore matchRules)).map rateUrl)
      crawl_date := some now },
    rfl, ⟨rfl, rfl, Or.inl hc, Or.inl hu⟩, ?_, ?_, ?_, ?_, ?_⟩
  · exact ⟨rfl, rfl, Or.inr rfl, Or.inr ⟨aggResult, _, rfl, rfl,
      forall₂_urlSub_detect classify rscore matchRules aggResult hf⟩⟩
  · refine ⟨rfl, rfl, Or.inr rfl, Or.inr ⟨_, _, rfl, rfl,
      forall₂_urlSub_rate _ ?_⟩⟩
    intro v hv s hs
    exact Or.inl
      (detect_output_ratings classify rscore matchRules aggResult hf v hv s hs)
  · intro h
    have h2 : seed.urls = some aggResult := by rw [h]
    rw [hu] at h2
    exact Option.noConfusion h2
  · intro hne h
    have h2 : some aggResult =
        some ((batch_tag_sentences classify aggResult).map
          (detectUrl rscore matchRules)) := congrArg Message.urls h
    have h3 := Option.some.inj h2
    unfold batch_tag_sentences at h3
    rw [List.map_map] at h3
    cases aggResult with
    | nil => exact hne rfl
    | cons u rest =>
      have h4 := list_map_eq_self h3.symm u (List.mem_cons_self u rest)
      have h5 : some (rscore
          { u with sentences := u.sentences.map (tagSentence classify) }) =
          u.readability := congrArg UrlObj.readability h4
      rw [(hf u (List.mem_cons_self u rest)).1] at h5
      exact Option.noConfusion h5
  · rintro ⟨u, hu2, hsne⟩ h
    have h2 := Option.some.inj (congrArg Message.urls h)
    have hv : detectUrl rscore matchRules
        { u with sentences := u.sentences.map (tagSentence classify) } ∈
        (batch_tag_sentences classify aggResult).map
          (detectUrl rscore matchRules) := by
      refine List.mem_map_of_mem _ ?_
      exact List.mem_map_of_mem
        (fun w => { w with sentences := w.sentences.map (tagSentence classify) })
        hu2
    have h4 := list_map_eq_self h2.symm _ hv
    have h6 : ((u.sentences.map (tagSentence classify)).map
        (patternSentence matchRules)).map rateSentence =
        (u.sentences.map (tagSentence classify)).map
          (patternSentence matchRules) := congrArg UrlObj.sentences h4
    obtain ⟨s0, hs0⟩ := List.exists_mem_of_ne_nil _ hsne
    have hsm : patternSentence matchRules (tagSentence classify s0) ∈
        (u.sentences.map (tagSentence classify)).map
          (patternSentence matchRules) :=
      List.mem_map_of_mem _ (List.mem_map_of_mem _ hs0)
    have h7 := list_map_eq_self h6 _ hsm
    have h8 : some 0 = s0.rating := congrArg SentenceObj.rating h7
    rw [((hf u hu2).2 s0 hs0).2.2] at h8
    exact Option.noConfusion h8

/-- Witness for C8 at a concrete input: one fresh url object with one
sentence. -/
theorem pipeline_key_order_and_growth_witness :
    ∃ m1 m2 m3 : Message,
      runPipeline (fun _ => 0) (fun _ => 0) (fun _ => []) [uEx] "2015-11-20"
          seedEx =
        .ok [("detect" ++ ":" ++ seedEx.hashslug, m1),
          ("rate" ++ ":" ++ seedEx.hashslug, m2),
          ("save" ++ ":" ++ seedEx.hashslug, m3)] ∧
      msgSub seedEx m1 ∧ msgSub m1 m2 ∧ msgSub m2 m3 ∧
      seedEx ≠ m1 ∧ ([uEx] ≠ [] → m1 ≠ m2) ∧
      ((∃ u ∈ [uEx], u.sentences ≠ []) → m2 ≠ m3) :=
  pipeline_key_order_and_growth (fun _ => 0) (fun _ => 0) (fun _ => [])
    [uEx] "2015-11-20" seedEx rfl rfl (by decide)

/-- Counterexample to C8 as stated: with an empty aggregator result the
`detect` and `rate` stages write the very same message, so the written
`rate` payload is not a strict superset of the written `detect` payload. -/
theorem pipeline_strict_superset_fails :
    runPipeline (fun _ => 0) (fun _ => 0) (fun _ => []) [] "2015-11-20"
        seedEx =
      .ok [("detect:procrastinate-6ad283", emptyRunMsg),
        ("rate:procrastinate-6ad283", emptyRunMsg),
        ("save:procrastinate-6ad283", emptyRunMsg)] ∧
    ¬(msgSub emptyRunMsg emptyRunMsg ∧ emptyRunMsg ≠ emptyRunMsg) :=
  ⟨rfl, fun h => h.2 rfl⟩

/-- C9: the `search` stage always performs exactly one write; the `detect`
and `rate` stages perform exactly one write for every message carrying a
urls key — including an empty urls list — and return the written message. -/
theorem stages_always_persist :
    (∀ (aggResult : List UrlObj) (now : String) (seed : Message),
      (searchTask aggResult now seed).2 =
        [("detect" ++ ":" ++ seed.hashslug, (searchTask aggResult now seed).1)]) ∧
    (∀ (classify : String → ℚ) (rscore : UrlObj → ℚ)
      (matchRules : String → List String) (m : Message) (urls : List UrlObj),
      m.urls = some urls →
      ∃ m2, detect classify rscore matchRules m =
        .ok (m2, [("rate" ++ ":" ++ m.hashslug, m2)])) ∧
    (∀ (m : Message) (urls : List UrlObj), m.urls = some urls →
      ∃ m2, rate m = .ok (m2, [("save" ++ ":" ++ m.hashslug, m2)])) := by
  refine ⟨fun agg now seed => rfl, ?_, ?_⟩
  · intro classify rscore matchRules m urls h
    refine ⟨{ m with urls := some ((batch_tag_sentences classify urls).map
      (detectUrl rscore matchRules)) }, ?_⟩
    unfold detect
    rw [h]
    rfl
  · intro m urls h
    refine ⟨{ m with urls := some (urls.map rateUrl) }, ?_⟩
    unfold rate
    rw [h]
    rfl

/-- Witness for C9 at a concrete input: the totally degraded case of an
empty urls list still produces one write per stage. -/
theorem stages_always_persist_witness :
    (searchTask [] "2015-11-20" seedEx).2 =
      [("detect" ++ ":" ++ seedEx.hashslug, (searchTask [] "2015-11-20" seedEx).1)] ∧
    (∃ m2, detect (fun _ => 0) (fun _ => 0) (fun _ => []) emptyRunMsg =
      .ok (m2, [("rate" ++ ":" ++ emptyRunMsg.hashslug, m2)])) ∧
    (∃ m2, rate emptyRunMsg =
      .ok (m2, [("save" ++ ":" ++ emptyRunMsg.hashslug, m2)])) :=
  ⟨stages_always_persist.1 [] "2015-11-20" seedEx,
    stages_always_persist.2.1 (fun _ => 0) (fun _ => 0) (fun _ => [])
      emptyRunMsg [] rfl,
    stages_always_persist.2.2 emptyRunMsg [] rfl⟩

end Serapis
